import Mathlib

/-!
Verification of the `steploop` step-scheduler (`src/steploop.ts`).

The `StepLoop` structure mirrors the instance fields of the TypeScript class.
`Sys` couples one loop instance with the relevant parts of its JavaScript host
environment: the list of pending scheduled callbacks (`setTimeout` timers and
`requestAnimationFrame` frame requests), the id counter for freshly allocated
handles, a counter into an ambient stream of `performance.now()` readings, and
a trace of hook invocations and error logs.

Numbers are modelled as rationals (JS `number` arithmetic on these code paths
is exact for the values involved); `number | undefined` fields are `Option ℚ`,
and JavaScript truthiness (`undefined` and `0` falsy) is modelled explicitly.

A `Host` records, for each overridable hook, whether its invocation throws at
a given observed step number; hook invocations append events to the trace,
recording the value `get_step()` returns at the moment the hook runs.
-/

namespace Steploop

/-- Label identifying which hook an error log refers to (the string labels of
the `console.error` calls in the source). -/
inductive HookTag where
  | initialTag
  | backgroundTag
  | beforeTag
  | stepTag
  | afterTag
  | finalTag
  | pauseTag
  | playTag
deriving DecidableEq

/-- Observable events: each hook invocation (recording the loop's `_step_num`
at the moment the hook is called, i.e. what `get_step()` returns inside the
hook), and error logs from caught hook exceptions. -/
inductive Ev where
  | initialEv (i : Nat)
  | backgroundEv (i : Nat)
  | beforeEv (i : Nat)
  | stepEv (i : Nat)
  | afterEv (i : Nat)
  | finalEv (i : Nat)
  | pauseEv (i : Nat)
  | playEv (i : Nat)
  | errEv (t : HookTag)
deriving DecidableEq

/-- A host subclass: for each hook, whether the invocation at a given observed
step number throws. -/
structure Host where
  initial_throws : Nat → Bool
  background_throws : Nat → Bool
  before_throws : Nat → Bool
  step_throws : Nat → Bool
  after_throws : Nat → Bool
  final_throws : Nat → Bool
  pause_throws : Nat → Bool
  play_throws : Nat → Bool

/-- A host none of whose hooks ever throws. -/
def quietHost : Host :=
  { initial_throws := fun _ => false
    background_throws := fun _ => false
    before_throws := fun _ => false
    step_throws := fun _ => false
    after_throws := fun _ => false
    final_throws := fun _ => false
    pause_throws := fun _ => false
    play_throws := fun _ => false }

/-- The instance fields of the `StepLoop` class (`src/steploop.ts`). -/
structure StepLoop where
  step_num : Nat
  lifespan : Option ℚ
  sps : ℚ
  interval : ℚ
  startTime : ℚ
  lastStepTime : ℚ
  lastStepDuration : ℚ
  timeoutId : Option Nat
  initialized : Bool
  running : Bool
  paused : Bool
  kill : Bool
  RAFAvailable : Bool
  RAFActive : Bool
  RAFId : Option Nat
deriving DecidableEq

/-- The constructor `new StepLoop(sps, lifespan, RAF)`; `RAFAvailable` models
`typeof requestAnimationFrame !== 'undefined'` in the execution environment. -/
def StepLoop.new (sps : ℚ) (lifespan : Option ℚ) (RAF : Bool)
    (RAFAvailable : Bool) : StepLoop :=
  { step_num := 0
    lifespan := lifespan
    sps := sps
    interval := 1000 / sps
    startTime := 0
    lastStepTime := 0
    lastStepDuration := 0
    timeoutId := none
    initialized := false
    running := false
    paused := false
    kill := false
    RAFAvailable := RAFAvailable
    RAFActive := RAF
    RAFId := none }

/-- A scheduled callback pending in the host environment: a one-shot timer
(`setTimeout`, with its computed delay) or a display-refresh request
(`requestAnimationFrame`). Both callbacks invoke `_run`. -/
inductive Handle where
  | timer (id : Nat) (delay : ℚ)
  | raf (id : Nat)
deriving DecidableEq

/-- One loop instance plus its host environment: pending scheduled callbacks,
the fresh-handle counter, the index into the ambient `performance.now()`
stream, and the trace of observed events. -/
structure Sys where
  loop : StepLoop
  pending : List Handle
  nextId : Nat
  tclock : Nat
  trace : List Ev
deriving DecidableEq

/-- A freshly constructed loop in a fresh environment. -/
def Sys.mkNew (l : StepLoop) : Sys :=
  { loop := l, pending := [], nextId := 1, tclock := 0, trace := [] }

/-- One call of `performance.now()`: reads the ambient time stream `τ` at the
current position and advances the position. -/
def perfNow (τ : Nat → ℚ) (s : Sys) : ℚ × Sys :=
  (τ s.tclock, { s with tclock := s.tclock + 1 })

/-- JS truthiness of a `number | undefined` value: `undefined` and `0` are
falsy, every other number truthy. -/
def truthyNum : Option ℚ → Bool
  | none => false
  | some x => x != 0

/-- JS truthiness of a stored handle id (`undefined` or id `0` falsy; the
environment allocates ids starting at 1). -/
def truthyId : Option Nat → Bool
  | none => false
  | some n => n != 0

/-- JS `x || 0` for `x : number | undefined`. -/
def jsOrZero : Option ℚ → ℚ
  | none => 0
  | some x => if x != 0 then x else 0

/-- Append one event to the trace. -/
def logEv (e : Ev) (s : Sys) : Sys :=
  { s with trace := s.trace ++ [e] }

/-- Raw invocation of a host hook: the hook runs (its observation is recorded
as the event) and, per the host behavior, either returns normally or throws
the given tag. -/
def callRaw (s : Sys) (ev : Ev) (throws : Bool) (t : HookTag) :
    Sys × Option HookTag :=
  (logEv ev s, if throws then some t else none)

/-- The `try { hook() } catch (error) { console.error(label, error) }`: a thrown
exception is swallowed and logged. -/
def tryHook (r : Sys × Option HookTag) : Sys :=
  match r with
  | (s, none) => s
  | (s, some t) => logEv (Ev.errEv t) s

/-- Invocation of `this.initial()`. -/
def callInitial (host : Host) (s : Sys) : Sys × Option HookTag :=
  callRaw s (Ev.initialEv s.loop.step_num) (host.initial_throws s.loop.step_num)
    HookTag.initialTag

/-- The `this.background().catch(error => console.error(...))`: fire-and-forget;
a rejection is caught by the attached handler and logged. -/
def callBackground (host : Host) (s : Sys) : Sys :=
  tryHook (callRaw s (Ev.backgroundEv s.loop.step_num)
    (host.background_throws s.loop.step_num) HookTag.backgroundTag)

/-- Invocation of `this.before()`. -/
def callBefore (host : Host) (s : Sys) : Sys × Option HookTag :=
  callRaw s (Ev.beforeEv s.loop.step_num) (host.before_throws s.loop.step_num)
    HookTag.beforeTag

/-- Invocation of `this.step()`. -/
def callStep (host : Host) (s : Sys) : Sys × Option HookTag :=
  callRaw s (Ev.stepEv s.loop.step_num) (host.step_throws s.loop.step_num)
    HookTag.stepTag

/-- Invocation of `this.after()`. -/
def callAfter (host : Host) (s : Sys) : Sys × Option HookTag :=
  callRaw s (Ev.afterEv s.loop.step_num) (host.after_throws s.loop.step_num)
    HookTag.afterTag

/-- Invocation of `this.final()`. -/
def callFinal (host : Host) (s : Sys) : Sys × Option HookTag :=
  callRaw s (Ev.finalEv s.loop.step_num) (host.final_throws s.loop.step_num)
    HookTag.finalTag

/-- Invocation of `this.on_pause()` (called bare in `pause()`, no wrapping). -/
def callOnPause (host : Host) (s : Sys) : Sys × Option HookTag :=
  callRaw s (Ev.pauseEv s.loop.step_num) (host.pause_throws s.loop.step_num)
    HookTag.pauseTag

/-- Invocation of `this.on_play()` (called bare in `play()`, no wrapping). -/
def callOnPlay (host : Host) (s : Sys) : Sys × Option HookTag :=
  callRaw s (Ev.playEv s.loop.step_num) (host.play_throws s.loop.step_num)
    HookTag.playTag

/-- The `clearTimeout(id)`: removes the pending timer with that id, if any. -/
def clearTimeoutEnv (id : Nat) (p : List Handle) : List Handle :=
  p.filter fun h =>
    match h with
    | .timer i _ => i != id
    | .raf _ => true

/-- The `cancelAnimationFrame(id)`: removes the pending frame request with that
id, if any. -/
def cancelFrameEnv (id : Nat) (p : List Handle) : List Handle :=
  p.filter fun h =>
    match h with
    | .timer _ _ => true
    | .raf i => i != id

/-- The `_cancel_next_step()` (src/steploop.ts:525-533): dispatches on the
*current* value of the `_RAFActive` toggle. -/
def _cancel_next_step (s : Sys) : Sys :=
  if truthyId s.loop.timeoutId && !s.loop.RAFActive then
    { s with
      pending := clearTimeoutEnv (s.loop.timeoutId.getD 0) s.pending
      loop := { s.loop with timeoutId := none } }
  else if truthyId s.loop.RAFId && s.loop.RAFActive then
    { s with
      pending := cancelFrameEnv (s.loop.RAFId.getD 0) s.pending
      loop := { s.loop with RAFId := none } }
  else s

/-- The `_check_for_end_trigger()` (src/steploop.ts:535-541). JS truthiness:
`this._lifespan && (this._step_num >= this._lifespan)`. -/
def _check_for_end_trigger (l : StepLoop) : Bool :=
  l.kill ||
    (match l.lifespan with
     | none => false
     | some v => (v != 0) && decide ((l.step_num : ℚ) ≥ v))

/-- The `_init()` (src/steploop.ts:543-553). -/
def _init (host : Host) (s : Sys) : Sys :=
  let s := { s with
    loop := { s.loop with kill := false, initialized := true, step_num := 0 } }
  tryHook (callInitial host s)

/-- The `_request_next_step(timestamp)` (src/steploop.ts:506-523). The
`timestamp` argument is unused in the source body, which samples
`performance.now()` afresh for the timer-delay computation. -/
def _request_next_step (τ : Nat → ℚ) (_timestamp : ℚ) (s : Sys) : Sys :=
  if !s.loop.running then s
  else if s.loop.RAFActive && s.loop.RAFAvailable then
    { s with
      loop := { s.loop with RAFId := some s.nextId }
      pending := s.pending ++ [Handle.raf s.nextId]
      nextId := s.nextId + 1 }
  else
    let p := perfNow τ s
    let now := p.1
    let s := p.2
    let nextStepTime := s.loop.startTime + (s.loop.step_num : ℚ) * s.loop.interval
    let delay := max 0 (nextStepTime - now)
    { s with
      loop := { s.loop with timeoutId := some s.nextId }
      pending := s.pending ++ [Handle.timer s.nextId delay]
      nextId := s.nextId + 1 }

/-- The `_term()` (src/steploop.ts:591-603). -/
def _term (host : Host) (s : Sys) : Sys :=
  let s := { s with loop := { s.loop with running := false, paused := false } }
  let s := _cancel_next_step s
  let s := { s with loop := { s.loop with kill := true } }
  tryHook (callFinal host s)

/-- The `_run(timestamp)` (src/steploop.ts:555-589). -/
def _run (τ : Nat → ℚ) (host : Host) (timestamp : ℚ) (s : Sys) : Sys :=
  if s.loop.running then
    if _check_for_end_trigger s.loop then
      _term host s
    else
      let s := callBackground host s
      let s := tryHook (callBefore host s)
      let s := tryHook (callStep host s)
      let s := tryHook (callAfter host s)
      let s := { s with loop := { s.loop with
        step_num := s.loop.step_num + 1 } }
      let s := { s with loop := { s.loop with
        lastStepDuration := timestamp - s.loop.lastStepTime
        lastStepTime := timestamp } }
      _request_next_step τ timestamp s
  else s

/-- The `_main()` (src/steploop.ts:605-608). -/
def _main (τ : Nat → ℚ) (host : Host) (s : Sys) : Sys :=
  let s := _init host s
  let p := perfNow τ s
  _run τ host p.1 p.2

/-- The `pause()` (src/steploop.ts:421-428). `this.on_pause()` is invoked bare:
a thrown exception propagates to the caller (second component). -/
def pause (host : Host) (s : Sys) : Sys × Option HookTag :=
  if !s.loop.initialized || !s.loop.running || s.loop.kill then (s, none)
  else
    let s := { s with loop := { s.loop with running := false, paused := true } }
    let s := _cancel_next_step s
    callOnPause host s

/-- The `play()` (src/steploop.ts:445-453). `this.on_play()` is invoked bare: if
it throws, the exception propagates and the trailing `this._run(...)` call is
never reached. -/
def play (τ : Nat → ℚ) (host : Host) (s : Sys) : Sys × Option HookTag :=
  if !s.loop.initialized || s.loop.running || s.loop.kill then (s, none)
  else
    let s := { s with loop := { s.loop with running := true, paused := false } }
    let p := perfNow τ s
    let s := p.2
    let s := { s with loop := { s.loop with
      startTime := p.1 - (s.loop.step_num : ℚ) * s.loop.interval } }
    match callOnPlay host s with
    | (s, some t) => (s, some t)
    | (s, none) =>
      let q := perfNow τ s
      (_run τ host q.1 q.2, none)

/-- The `start()` (src/steploop.ts:470-474): no guard, valid from any state. -/
def start (τ : Nat → ℚ) (host : Host) (s : Sys) : Sys :=
  let s := { s with loop := { s.loop with running := true } }
  let p := perfNow τ s
  let s := { p.2 with loop := { p.2.loop with startTime := p.1 } }
  _main τ host s

/-- The `finish()` (src/steploop.ts:490-498). -/
def finish (host : Host) (s : Sys) : Sys :=
  if !s.loop.initialized || s.loop.kill then s
  else
    let s := { s with
      loop := { s.loop with running := false, paused := false, kill := true } }
    let s := _cancel_next_step s
    _term host s

/-- The `set_sps(sps)` (src/steploop.ts:347-353). -/
def set_sps (sps : ℚ) (s : Sys) : Sys × ℚ :=
  let s := { s with loop := { s.loop with sps := sps, interval := 1000 / sps } }
  (s, s.loop.sps)

/-- The `set_use_RAF(status)` (src/steploop.ts:370-373). -/
def set_use_RAF (status : Bool) (s : Sys) : Sys × Bool :=
  let s := { s with loop := { s.loop with RAFActive := status } }
  (s, s.loop.RAFActive)

/-- The `extend_lifespan(steps)` (src/steploop.ts:392-405). -/
def extend_lifespan (steps : Option ℚ) (s : Sys) : Sys × Option ℚ :=
  if !s.loop.initialized then (s, none)
  else
    match steps with
    | none =>
      let s := { s with loop := { s.loop with lifespan := none } }
      (s, s.loop.lifespan)
    | some d =>
      let newLifespan := jsOrZero s.loop.lifespan + d
      let s := { s with loop := { s.loop with lifespan := some newLifespan } }
      let s :=
        if s.loop.kill && decide (newLifespan > (s.loop.step_num : ℚ)) then
          { s with loop := { s.loop with kill := false } }
        else s
      (s, s.loop.lifespan)

/-- The `is_running()` (src/steploop.ts:235-237). -/
def is_running (s : Sys) : Bool := s.loop.running

/-- The `is_paused()` (src/steploop.ts:253-255). -/
def is_paused (s : Sys) : Bool := s.loop.paused

/-- The `get_step()` (src/steploop.ts:271-273). -/
def get_step (s : Sys) : Nat := s.loop.step_num

/-- The `get_sps()` (src/steploop.ts:289-291). -/
def get_sps (s : Sys) : ℚ := s.loop.sps

/-- The `get_lifespan()` (src/steploop.ts:328-330). -/
def get_lifespan (s : Sys) : Option ℚ := s.loop.lifespan

/-- The host environment fires the pending callback at position `k`: the
handle is consumed and its callback body runs — for a timer
`() => this._run(performance.now())`, for a frame request
`(nextTimestamp) => this._run(nextTimestamp)` (the frame timestamp being the
next ambient time reading). -/
def fireAt (τ : Nat → ℚ) (host : Host) (k : Nat) (s : Sys) : Sys :=
  match s.pending.get? k with
  | none => s
  | some h =>
    let s := { s with pending := s.pending.eraseIdx k }
    match h with
    | .timer _ _ =>
      let p := perfNow τ s
      _run τ host p.1 p.2
    | .raf _ =>
      let p := perfNow τ s
      _run τ host p.1 p.2

/-- Fire the oldest pending callback, if any. -/
def fireNext (τ : Nat → ℚ) (host : Host) (s : Sys) : Sys :=
  fireAt τ host 0 s

/-- Let the event loop fire `n` successive callbacks. -/
def runFires (τ : Nat → ℚ) (host : Host) : Nat → Sys → Sys
  | 0, s => s
  | n + 1, s => runFires τ host n (fireNext τ host s)

/-- A public operation on a loop instance, or the firing of a pending
scheduled callback by the environment. -/
inductive Op where
  | startOp
  | pauseOp
  | playOp
  | finishOp
  | setSpsOp (q : ℚ)
  | setRAFOp (b : Bool)
  | extendOp (o : Option ℚ)
  | fireOp (k : Nat)
deriving DecidableEq

/-- Apply one operation (return values discarded; a hook exception escaping
`pause`/`play` leaves the mutated state behind, as in JS). -/
def applyOp (τ : Nat → ℚ) (host : Host) : Op → Sys → Sys
  | .startOp, s => start τ host s
  | .pauseOp, s => (pause host s).1
  | .playOp, s => (play τ host s).1
  | .finishOp, s => finish host s
  | .setSpsOp q, s => (set_sps q s).1
  | .setRAFOp b, s => (set_use_RAF b s).1
  | .extendOp o, s => (extend_lifespan o s).1
  | .fireOp k, s => fireAt τ host k s

/-- States reachable from a freshly constructed loop by any sequence of
public operations and callback firings, under arbitrary ambient times and
host behaviors. -/
inductive Reachable : Sys → Prop where
  | construct (sps : ℚ) (lifespan : Option ℚ) (RAF RAFAvail : Bool) :
      Reachable (Sys.mkNew (StepLoop.new sps lifespan RAF RAFAvail))
  | step (τ : Nat → ℚ) (host : Host) (op : Op) (s : Sys) :
      Reachable s → Reachable (applyOp τ host op s)

/-- Whether an event is a hook invocation (as opposed to an error log). -/
def isHookEv : Ev → Bool
  | .errEv _ => false
  | _ => true

/-- The hook invocations of a trace, error logs removed. -/
def hookEvents (l : List Ev) : List Ev := l.filter isHookEv

/-- A constant ambient time stream, for concrete executions. -/
def τ0 : Nat → ℚ := fun _ => 0

/-- The error log produced by a hook invocation that throws. -/
def errIf (b : Bool) (t : HookTag) : List Ev :=
  if b then [Ev.errEv t] else []

/-- The events of one cycle of the looping stage, in source order, at observed
step count `i`: the fire-and-forget background hook, then before, step, after,
each possibly followed by its swallowed-error log. -/
def cycleTrace (host : Host) (i : Nat) : List Ev :=
  [Ev.backgroundEv i] ++ errIf (host.background_throws i) HookTag.backgroundTag ++
  [Ev.beforeEv i] ++ errIf (host.before_throws i) HookTag.beforeTag ++
  [Ev.stepEv i] ++ errIf (host.step_throws i) HookTag.stepTag ++
  [Ev.afterEv i] ++ errIf (host.after_throws i) HookTag.afterTag

/-- Mid-run invariant of a lifespan-`N` run: the loop is running and alive
with lifespan `N`, `k` cycles have completed, and exactly one scheduled
callback is pending in the environment. -/
def MidRun (N k : Nat) (s : Sys) : Prop :=
  s.loop.running = true ∧ s.loop.kill = false ∧
  s.loop.lifespan = some (N : ℚ) ∧ s.loop.step_num = k ∧
  ∃ h, s.pending = [h]

/-- The state after a lifespan-`N` run has auto-terminated. -/
def TermState (N : Nat) (s : Sys) : Prop :=
  s.loop.running = false ∧ s.loop.paused = false ∧ s.loop.kill = true ∧
  s.loop.step_num = N ∧ s.pending = []

/-- Loop-field part of the `_cancel_next_step` effect. -/
def cancelLoopF (l : StepLoop) : StepLoop :=
  if truthyId l.timeoutId && !l.RAFActive then { l with timeoutId := none }
  else if truthyId l.RAFId && l.RAFActive then { l with RAFId := none }
  else l

/-- Pending-list part of the `_cancel_next_step` effect. -/
def cancelPendF (l : StepLoop) (p : List Handle) : List Handle :=
  if truthyId l.timeoutId && !l.RAFActive then clearTimeoutEnv (l.timeoutId.getD 0) p
  else if truthyId l.RAFId && l.RAFActive then cancelFrameEnv (l.RAFId.getD 0) p
  else p

/-- Loop-field part of the `_request_next_step` effect. -/
def requestLoopF (l : StepLoop) (nid : Nat) : StepLoop :=
  if !l.running then l
  else if l.RAFActive && l.RAFAvailable then { l with RAFId := some nid }
  else { l with timeoutId := some nid }

/-- Pending-list part of the `_request_next_step` effect. -/
def requestPendF (τ : Nat → ℚ) (l : StepLoop) (p : List Handle) (nid tc : Nat) :
    List Handle :=
  if !l.running then p
  else if l.RAFActive && l.RAFAvailable then p ++ [Handle.raf nid]
  else p ++ [Handle.timer nid
    (max 0 (l.startTime + (l.step_num : ℚ) * l.interval - τ tc))]

/-- Id-counter part of the `_request_next_step` effect. -/
def requestNextIdF (l : StepLoop) (nid : Nat) : Nat :=
  if !l.running then nid else nid + 1

/-- Clock-position part of the `_request_next_step` effect. -/
def requestTclockF (l : StepLoop) (tc : Nat) : Nat :=
  if !l.running then tc
  else if l.RAFActive && l.RAFAvailable then tc else tc + 1

/-- A started demo loop (rate 60, unlimited lifespan, timer strategy). -/
def demoStarted : Sys :=
  start τ0 quietHost (Sys.mkNew (StepLoop.new 60 none false false))

/-- The demo loop paused after its first cycle. -/
def demoPaused : Sys := (pause quietHost demoStarted).1

/-- A host whose `on_pause` and `on_play` overrides always throw. -/
def throwingHost : Host :=
  { quietHost with pause_throws := fun _ => true, play_throws := fun _ => true }

/-- A started demo loop in an environment where `requestAnimationFrame` is
available (display-sync toggle initially off). -/
def demoRAFStarted : Sys :=
  start τ0 quietHost (Sys.mkNew (StepLoop.new 60 none false true))

/-- A lifespan-2 loop run to auto-termination. -/
def lifespan2Done : Sys :=
  runFires τ0 quietHost 2
    (start τ0 quietHost (Sys.mkNew (StepLoop.new 60 (some 2) false false)))

/-- The auto-terminated lifespan-2 loop after `extend_lifespan(2)`. -/
def lifespan2Extended : Sys := (extend_lifespan (some 2) lifespan2Done).1

/-- The revived loop played and allowed to run to its new lifespan of 4. -/
def lifespan2Resumed : Sys :=
  runFires τ0 quietHost 2 ((play τ0 quietHost lifespan2Extended).1)

/-- The demo loop explicitly terminated by `finish()`. -/
def demoFinished : Sys := finish quietHost demoStarted

/-- A demo loop with unlimited lifespan, terminated by an explicit
`finish()` after two completed cycles. -/
def unlimitedFinished : Sys := finish quietHost (fireNext τ0 quietHost demoStarted)

/-- The finish-terminated loop after `extend_lifespan(5)`. -/
def revived : Sys := (extend_lifespan (some 5) unlimitedFinished).1

/-- The revived loop played and allowed to run to its new lifespan of 5. -/
def revivedResumed : Sys :=
  runFires τ0 quietHost 3 ((play τ0 quietHost revived).1)

theorem logEv_loop (e : Ev) (s : Sys) : (logEv e s).loop = s.loop := rfl

theorem logEv_pending (e : Ev) (s : Sys) : (logEv e s).pending = s.pending := rfl

theorem logEv_nextId (e : Ev) (s : Sys) : (logEv e s).nextId = s.nextId := rfl

theorem logEv_tclock (e : Ev) (s : Sys) : (logEv e s).tclock = s.tclock := rfl

theorem logEv_trace (e : Ev) (s : Sys) : (logEv e s).trace = s.trace ++ [e] := rfl

theorem tryHook_callRaw_loop (s : Sys) (ev : Ev) (th : Bool) (t : HookTag) :
    (tryHook (callRaw s ev th t)).loop = s.loop := by
  cases th <;> rfl

theorem tryHook_callRaw_pending (s : Sys) (ev : Ev) (th : Bool) (t : HookTag) :
    (tryHook (callRaw s ev th t)).pending = s.pending := by
  cases th <;> rfl

theorem tryHook_callRaw_nextId (s : Sys) (ev : Ev) (th : Bool) (t : HookTag) :
    (tryHook (callRaw s ev th t)).nextId = s.nextId := by
  cases th <;> rfl

theorem tryHook_callRaw_tclock (s : Sys) (ev : Ev) (th : Bool) (t : HookTag) :
    (tryHook (callRaw s ev th t)).tclock = s.tclock := by
  cases th <;> rfl

theorem tryHook_callRaw_trace (s : Sys) (ev : Ev) (th : Bool) (t : HookTag) :
    (tryHook (callRaw s ev th t)).trace = s.trace ++ [ev] ++ errIf th t := by
  cases th <;> simp [tryHook, callRaw, logEv, errIf]

theorem hookEvents_nil : hookEvents [] = [] := rfl

theorem hookEvents_append (a b : List Ev) :
    hookEvents (a ++ b) = hookEvents a ++ hookEvents b := by
  simp [hookEvents, List.filter_append]

theorem hookEvents_errIf (b : Bool) (t : HookTag) :
    hookEvents (errIf b t) = [] := by
  cases b <;> rfl

theorem hookEvents_single_of_hook (e : Ev) (h : isHookEv e = true) :
    hookEvents [e] = [e] := by
  simp [hookEvents, List.filter, h]

/-- The `_cancel_next_step` only touches the pending list and the stored handle
ids; when nothing was pending, nothing is pending afterwards. -/
theorem cancel_spec (s : Sys) : ∃ tid rid pnd,
    _cancel_next_step s =
      { s with
        pending := pnd
        loop := { s.loop with timeoutId := tid, RAFId := rid } } ∧
    (s.pending = [] → pnd = []) := by
  unfold _cancel_next_step
  split
  · exact ⟨none, s.loop.RAFId, _, rfl, fun h => by simp [clearTimeoutEnv, h]⟩
  · split
    · exact ⟨s.loop.timeoutId, none, _, rfl, fun h => by simp [cancelFrameEnv, h]⟩
    · exact ⟨s.loop.timeoutId, s.loop.RAFId, s.pending, rfl, fun h => h⟩

/-- The `_request_next_step` does nothing when the loop is not running. -/
theorem request_not_running (τ : Nat → ℚ) (t : ℚ) (s : Sys)
    (h : s.loop.running = false) : _request_next_step τ t s = s := by
  unfold _request_next_step
  simp [h]

/-- Fields `_cancel_next_step` never changes. -/
theorem cancel_fields (s : Sys) :
    (_cancel_next_step s).loop.running = s.loop.running ∧
    (_cancel_next_step s).loop.paused = s.loop.paused ∧
    (_cancel_next_step s).loop.kill = s.loop.kill ∧
    (_cancel_next_step s).loop.initialized = s.loop.initialized ∧
    (_cancel_next_step s).loop.step_num = s.loop.step_num ∧
    (_cancel_next_step s).loop.lifespan = s.loop.lifespan ∧
    (_cancel_next_step s).trace = s.trace ∧
    (_cancel_next_step s).tclock = s.tclock ∧
    (_cancel_next_step s).nextId = s.nextId := by
  obtain ⟨tid, rid, pnd, heq, -⟩ := cancel_spec s
  rw [heq]
  exact ⟨rfl, rfl, rfl, rfl, rfl, rfl, rfl, rfl, rfl⟩

/-- Cancelling in a state with nothing pending leaves nothing pending. -/
theorem cancel_pending_nil (s : Sys) (h : s.pending = []) :
    (_cancel_next_step s).pending = [] := by
  obtain ⟨tid, rid, pnd, heq, hnil⟩ := cancel_spec s
  rw [heq]
  exact hnil h

/-- When the loop is running, `_request_next_step` appends exactly one new
callback to the pending list and leaves the loop fields (other than the
stored handle ids), the trace and the pending prefix unchanged. -/
theorem request_running (τ : Nat → ℚ) (t : ℚ) (s : Sys)
    (h : s.loop.running = true) : ∃ hd,
    (_request_next_step τ t s).pending = s.pending ++ [hd] := by
  unfold _request_next_step
  simp only [h, Bool.not_true, Bool.false_eq_true, if_false]
  split
  · exact ⟨Handle.raf s.nextId, rfl⟩
  · exact ⟨Handle.timer s.nextId
      (max 0 (s.loop.startTime + (s.loop.step_num : ℚ) * s.loop.interval - τ s.tclock)),
      rfl⟩

/-- Fields `_request_next_step` never changes. -/
theorem request_fields (τ : Nat → ℚ) (t : ℚ) (s : Sys) :
    (_request_next_step τ t s).loop.running = s.loop.running ∧
    (_request_next_step τ t s).loop.paused = s.loop.paused ∧
    (_request_next_step τ t s).loop.kill = s.loop.kill ∧
    (_request_next_step τ t s).loop.initialized = s.loop.initialized ∧
    (_request_next_step τ t s).loop.step_num = s.loop.step_num ∧
    (_request_next_step τ t s).loop.lifespan = s.loop.lifespan ∧
    (_request_next_step τ t s).trace = s.trace := by
  unfold _request_next_step
  split
  · exact ⟨rfl, rfl, rfl, rfl, rfl, rfl, rfl⟩
  · split
    · exact ⟨rfl, rfl, rfl, rfl, rfl, rfl, rfl⟩
    · exact ⟨rfl, rfl, rfl, rfl, rfl, rfl, rfl⟩

/-- The `_term`: flags forced to terminated, step count and lifespan untouched,
the final hook invoked observing the current step count, pending left empty
when it was empty. -/
theorem term_fields (host : Host) (s : Sys) :
    (_term host s).loop.running = false ∧
    (_term host s).loop.paused = false ∧
    (_term host s).loop.kill = true ∧
    (_term host s).loop.initialized = s.loop.initialized ∧
    (_term host s).loop.step_num = s.loop.step_num ∧
    (_term host s).loop.lifespan = s.loop.lifespan ∧
    (s.pending = [] → (_term host s).pending = []) ∧
    hookEvents (_term host s).trace =
      hookEvents s.trace ++ [Ev.finalEv s.loop.step_num] := by
  unfold _term
  obtain ⟨tid, rid, pnd, heq, hnil⟩ :=
    cancel_spec { s with loop := { s.loop with running := false, paused := false } }
  dsimp only
  rw [heq]
  refine ⟨?_, ?_, ?_, ?_, ?_, ?_, ?_, ?_⟩
  · simp [callFinal, tryHook_callRaw_loop]
  · simp [callFinal, tryHook_callRaw_loop]
  · simp [callFinal, tryHook_callRaw_loop]
  · simp [callFinal, tryHook_callRaw_loop]
  · simp [callFinal, tryHook_callRaw_loop]
  · simp [callFinal, tryHook_callRaw_loop]
  · intro h
    simp [callFinal, tryHook_callRaw_pending]
    exact hnil h
  · cases hf : host.final_throws s.loop.step_num <;>
      simp [callFinal, tryHook_callRaw_trace, hf, errIf, hookEvents_append,
        hookEvents, List.filter, isHookEv]

/-- Closed form of a wrapped hook invocation. -/
theorem tryHook_callRaw_eq (s : Sys) (ev : Ev) (th : Bool) (t : HookTag) :
    tryHook (callRaw s ev th t) = { s with trace := s.trace ++ [ev] ++ errIf th t } := by
  cases th <;> simp [tryHook, callRaw, logEv, errIf]

theorem run_not_running (τ : Nat → ℚ) (host : Host) (t : ℚ) (s : Sys)
    (h : s.loop.running = false) : _run τ host t s = s := by
  unfold _run
  simp [h]

theorem run_term (τ : Nat → ℚ) (host : Host) (t : ℚ) (s : Sys)
    (hr : s.loop.running = true) (ht : _check_for_end_trigger s.loop = true) :
    _run τ host t s = _term host s := by
  unfold _run
  simp [hr, ht]

/-- The looping-stage cycle, as one equation: the four hook events are
appended at the current step count, the step count is incremented afterwards,
the timing bookkeeping is updated, and the next tick is requested. -/
theorem run_cycle (τ : Nat → ℚ) (host : Host) (t : ℚ) (s : Sys)
    (hr : s.loop.running = true) (ht : _check_for_end_trigger s.loop = false) :
    _run τ host t s =
      _request_next_step τ t
        { s with
          loop := { s.loop with
            step_num := s.loop.step_num + 1
            lastStepDuration := t - s.loop.lastStepTime
            lastStepTime := t }
          trace := s.trace ++ cycleTrace host s.loop.step_num } := by
  unfold _run
  simp only [hr, ht, if_true, if_false, Bool.false_eq_true]
  congr 1
  simp [callBackground, callBefore, callStep, callAfter,
    tryHook_callRaw_loop, tryHook_callRaw_pending, tryHook_callRaw_nextId,
    tryHook_callRaw_tclock, tryHook_callRaw_trace, cycleTrace]
  exact hr

/-- The end trigger is off while the loop is alive and the (nonzero) lifespan
has not been reached. -/
theorem trigger_lt (N k : Nat) (l : StepLoop) (hkill : l.kill = false)
    (hl : l.lifespan = some (N : ℚ)) (hs : l.step_num = k) (hk : k < N) :
    _check_for_end_trigger l = false := by
  unfold _check_for_end_trigger
  rw [hkill, hl, hs]
  have h1 : ¬ ((k : ℚ) ≥ (N : ℚ)) := by exact_mod_cast Nat.not_le.mpr hk
  simp [h1]

/-- The end trigger fires once the step count reaches a positive lifespan. -/
theorem trigger_ge (N k : Nat) (l : StepLoop)
    (hl : l.lifespan = some (N : ℚ)) (hs : l.step_num = k) (hN : 1 ≤ N)
    (hk : N ≤ k) : _check_for_end_trigger l = true := by
  unfold _check_for_end_trigger
  rw [hl, hs]
  have h1 : ((k : ℚ) ≥ (N : ℚ)) := by exact_mod_cast hk
  have h2 : ((N : ℚ) ≠ 0) := by
    exact_mod_cast Nat.one_le_iff_ne_zero.mp hN
  simp [h1, h2]

/-- A scheduling request from a live below-lifespan state with empty pending
list establishes the mid-run invariant. -/
theorem request_into_mid (τ : Nat → ℚ) (t : ℚ) (N m : Nat) (X : Sys)
    (hr : X.loop.running = true) (hkill : X.loop.kill = false)
    (hl : X.loop.lifespan = some (N : ℚ)) (hsX : X.loop.step_num = m)
    (hpX : X.pending = []) : MidRun N m (_request_next_step τ t X) := by
  obtain ⟨f1, f2, f3, f4, f5, f6, f7⟩ := request_fields τ t X
  refine ⟨?_, ?_, ?_, ?_, ?_⟩
  · rw [f1]; exact hr
  · rw [f3]; exact hkill
  · rw [f6]; exact hl
  · rw [f5]; exact hsX
  · obtain ⟨hd, hpd⟩ := request_running τ t X hr
    exact ⟨hd, by rw [hpd, hpX]; rfl⟩

/-- Running one tick of a live below-lifespan state with empty pending list
re-establishes the mid-run invariant at the next step count. -/
theorem run_into_mid (τ : Nat → ℚ) (host : Host) (t : ℚ) (N k : Nat) (s : Sys)
    (hr : s.loop.running = true) (hkill : s.loop.kill = false)
    (hl : s.loop.lifespan = some (N : ℚ)) (hs : s.loop.step_num = k)
    (hp : s.pending = []) (hk : k < N) :
    MidRun N (k + 1) (_run τ host t s) := by
  have htr := trigger_lt N k s.loop hkill hl hs hk
  rw [run_cycle τ host t s hr htr]
  apply request_into_mid
  · exact hr
  · exact hkill
  · exact hl
  · show s.loop.step_num + 1 = k + 1
    rw [hs]
  · exact hp

/-- Running one tick of a live state that has reached its positive lifespan,
with empty pending list, terminates the run. -/
theorem run_into_term (τ : Nat → ℚ) (host : Host) (t : ℚ) (N : Nat) (s : Sys)
    (hr : s.loop.running = true) (hl : s.loop.lifespan = some (N : ℚ))
    (hs : s.loop.step_num = N) (hp : s.pending = []) (hN : 1 ≤ N) :
    TermState N (_run τ host t s) := by
  have htr := trigger_ge N N s.loop hl hs hN le_rfl
  rw [run_term τ host t s hr htr]
  obtain ⟨t1, t2, t3, t4, t5, t6, t7, t8⟩ := term_fields host s
  exact ⟨t1, t2, t3, by rw [t5]; exact hs, t7 hp⟩

/-- Firing the single pending callback of a mid-run state reduces to a `_run`
call on the state with the callback consumed. -/
theorem fireNext_mid_eq (τ : Nat → ℚ) (host : Host) (s : Sys) (h : Handle)
    (hp : s.pending = [h]) :
    fireNext τ host s =
      _run τ host (τ s.tclock) { s with pending := [], tclock := s.tclock + 1 } := by
  unfold fireNext fireAt
  rw [hp]
  cases h <;> simp [perfNow, List.eraseIdx]

theorem fireNext_mid (τ : Nat → ℚ) (host : Host) (N k : Nat) (s : Sys)
    (hm : MidRun N k s) (hk : k < N) : MidRun N (k + 1) (fireNext τ host s) := by
  obtain ⟨hr, hkill, hl, hs, h, hp⟩ := hm
  rw [fireNext_mid_eq τ host s h hp]
  exact run_into_mid τ host (τ s.tclock) N k _ hr hkill hl hs rfl hk

theorem fireNext_term (τ : Nat → ℚ) (host : Host) (N : Nat) (s : Sys)
    (hm : MidRun N N s) (hN : 1 ≤ N) : TermState N (fireNext τ host s) := by
  obtain ⟨hr, hkill, hl, hs, h, hp⟩ := hm
  rw [fireNext_mid_eq τ host s h hp]
  exact run_into_term τ host (τ s.tclock) N _ hr hl hs rfl hN

/-- Firing with nothing pending does nothing. -/
theorem fireNext_empty (τ : Nat → ℚ) (host : Host) (s : Sys)
    (hp : s.pending = []) : fireNext τ host s = s := by
  unfold fireNext fireAt
  rw [hp]
  rfl

theorem runFires_mid (τ : Nat → ℚ) (host : Host) (N : Nat) :
    ∀ (j k : Nat) (s : Sys), MidRun N k s → k + j ≤ N →
      MidRun N (k + j) (runFires τ host j s) := by
  intro j
  induction j with
  | zero => intro k s hm _; simpa [runFires] using hm
  | succ n ih =>
    intro k s hm hle
    have hk : k < N := by omega
    have h1 := fireNext_mid τ host N k s hm hk
    have h2 := ih (k + 1) (fireNext τ host s) h1 (by omega)
    have h3 : k + (n + 1) = (k + 1) + n := by omega
    rw [h3]
    simpa [runFires] using h2

theorem runFires_add (τ : Nat → ℚ) (host : Host) :
    ∀ (a b : Nat) (s : Sys),
      runFires τ host (a + b) s = runFires τ host b (runFires τ host a s) := by
  intro a
  induction a with
  | zero => intro b s; simp [runFires]
  | succ n ih =>
    intro b s
    have h : n + 1 + b = (n + b) + 1 := by omega
    rw [h]
    show runFires τ host (n + b) (fireNext τ host s) = _
    rw [ih b (fireNext τ host s)]
    rfl

/-- The `start()` in closed form: sets `running`, anchors `start_time`,
(re)initializes (clearing the kill flag and the step count, invoking the
initialization hook once), then immediately runs the first cycle. -/
theorem start_eq (τ : Nat → ℚ) (host : Host) (s : Sys) : ∃ tr,
    start τ host s =
      _run τ host (τ (s.tclock + 1))
        { s with
          loop := { s.loop with
            running := true, startTime := τ s.tclock
            kill := false, initialized := true, step_num := 0 }
          tclock := s.tclock + 2
          trace := tr } ∧
    hookEvents tr = hookEvents s.trace ++ [Ev.initialEv 0] ∧
    tr = s.trace ++ [Ev.initialEv 0] ++
      errIf (host.initial_throws 0) HookTag.initialTag := by
  refine ⟨s.trace ++ [Ev.initialEv 0] ++ errIf (host.initial_throws 0) HookTag.initialTag, ?_, ?_, rfl⟩
  · unfold start _main _init
    simp only [callInitial, tryHook_callRaw_eq, perfNow]
  · cases hI : host.initial_throws 0 <;>
      simp [hI, errIf, hookEvents, List.filter, isHookEv]

/-- Repeated firing does nothing once nothing is pending. -/
theorem runFires_empty (τ : Nat → ℚ) (host : Host) :
    ∀ (m : Nat) (s : Sys), s.pending = [] → runFires τ host m s = s := by
  intro m
  induction m with
  | zero => intro s _; rfl
  | succ n ih =>
    intro s hp
    show runFires τ host n (fireNext τ host s) = s
    rw [fireNext_empty τ host s hp]
    exact ih s hp

/-- The `start()` on a fresh loop with positive lifespan `N` runs cycle 0 inline
and leaves the loop in the mid-run invariant with one completed step. -/
theorem start_mid (τ : Nat → ℚ) (host : Host) (sps : ℚ) (N : Nat)
    (RAF avail : Bool) (hN : 1 ≤ N) :
    MidRun N 1 (start τ host (Sys.mkNew (StepLoop.new sps (some (N : ℚ)) RAF avail))) := by
  obtain ⟨tr, heq, -⟩ :=
    start_eq τ host (Sys.mkNew (StepLoop.new sps (some (N : ℚ)) RAF avail))
  rw [heq]
  exact run_into_mid τ host _ N 0 _ rfl rfl rfl rfl rfl (by omega)

/-- C1 (amended to positive lifespans): for every rate, every lifespan
`N ≥ 1`, every ambient timing and every host, a loop constructed with
lifespan `N` and started runs exactly `N` cycles — while fewer than `N`
callbacks have fired it is still running with `step_count` one above the
number of fires (cycle 0 having run inside `start()`), and after the `N`-th
fire it has auto-terminated: `is_running()` is `false`, `step_count = N`
exactly, the kill flag is set and nothing remains scheduled. -/
theorem lifespan_exact_termination (sps : ℚ) (N : Nat) (τ : Nat → ℚ)
    (host : Host) (RAF avail : Bool) (hN : 1 ≤ N) :
    (∀ k, k < N →
      is_running (runFires τ host k (start τ host
        (Sys.mkNew (StepLoop.new sps (some (N : ℚ)) RAF avail)))) = true ∧
      get_step (runFires τ host k (start τ host
        (Sys.mkNew (StepLoop.new sps (some (N : ℚ)) RAF avail)))) = k + 1) ∧
    is_running (runFires τ host N (start τ host
      (Sys.mkNew (StepLoop.new sps (some (N : ℚ)) RAF avail)))) = false ∧
    get_step (runFires τ host N (start τ host
      (Sys.mkNew (StepLoop.new sps (some (N : ℚ)) RAF avail)))) = N ∧
    (runFires τ host N (start τ host
      (Sys.mkNew (StepLoop.new sps (some (N : ℚ)) RAF avail)))).loop.kill = true ∧
    (runFires τ host N (start τ host
      (Sys.mkNew (StepLoop.new sps (some (N : ℚ)) RAF avail)))).pending = [] := by
  have hmid1 := start_mid τ host sps N RAF avail hN
  have hT : TermState N (runFires τ host N (start τ host
      (Sys.mkNew (StepLoop.new sps (some (N : ℚ)) RAF avail)))) := by
    have hmidN : MidRun N N (runFires τ host (N - 1) (start τ host
        (Sys.mkNew (StepLoop.new sps (some (N : ℚ)) RAF avail)))) := by
      have h1 := runFires_mid τ host N (N - 1) 1 _ hmid1 (by omega)
      have h2 : 1 + (N - 1) = N := by omega
      rw [h2] at h1
      exact h1
    have hsplit : runFires τ host N (start τ host
        (Sys.mkNew (StepLoop.new sps (some (N : ℚ)) RAF avail))) =
        runFires τ host 1 (runFires τ host (N - 1) (start τ host
          (Sys.mkNew (StepLoop.new sps (some (N : ℚ)) RAF avail)))) := by
      rw [← runFires_add]
      congr 1
      omega
    rw [hsplit]
    exact fireNext_term τ host N _ hmidN hN
  refine ⟨?_, hT.1, hT.2.2.2.1, hT.2.2.1, hT.2.2.2.2⟩
  intro k hk
  have h1 := runFires_mid τ host N k 1 _ hmid1 (by omega)
  obtain ⟨hr, -, -, hs, -⟩ := h1
  exact ⟨hr, by rw [get_step, hs]; omega⟩

/-- Witness for `lifespan_exact_termination` at rate 60, lifespan 2. -/
theorem lifespan_exact_termination_witness :
    (1 ≤ 2) ∧
    is_running (runFires τ0 quietHost 2 (start τ0 quietHost
      (Sys.mkNew (StepLoop.new 60 (some ((2 : Nat) : ℚ)) false false)))) = false ∧
    get_step (runFires τ0 quietHost 2 (start τ0 quietHost
      (Sys.mkNew (StepLoop.new 60 (some ((2 : Nat) : ℚ)) false false)))) = 2 :=
  ⟨by decide,
    (lifespan_exact_termination 60 2 τ0 quietHost false false (by decide)).2.1,
    (lifespan_exact_termination 60 2 τ0 quietHost false false (by decide)).2.2.1⟩

theorem cancel_comp (s : Sys) :
    _cancel_next_step s =
      { s with loop := cancelLoopF s.loop, pending := cancelPendF s.loop s.pending } := by
  unfold _cancel_next_step cancelLoopF cancelPendF
  split
  next h => simp [h]
  next h =>
    split
    next h2 => simp [h, h2]
    next h2 => simp [h, h2]

theorem cancelLoopF_step_num (l : StepLoop) : (cancelLoopF l).step_num = l.step_num := by
  unfold cancelLoopF
  split
  · rfl
  · split <;> rfl

theorem request_comp (τ : Nat → ℚ) (t : ℚ) (s : Sys) :
    _request_next_step τ t s =
      { s with
        loop := requestLoopF s.loop s.nextId
        pending := requestPendF τ s.loop s.pending s.nextId s.tclock
        nextId := requestNextIdF s.loop s.nextId
        tclock := requestTclockF s.loop s.tclock } := by
  unfold _request_next_step requestLoopF requestPendF requestNextIdF requestTclockF
  split
  next h => simp [h]
  next h =>
    split
    next h2 => simp [h, h2]
    next h2 => simp [h, h2, perfNow]

theorem term_comp (h : Host) (s : Sys) :
    _term h s =
      { s with
        loop := { cancelLoopF { s.loop with running := false, paused := false } with
          kill := true }
        pending := cancelPendF { s.loop with running := false, paused := false } s.pending
        trace := s.trace ++ [Ev.finalEv s.loop.step_num] ++
          errIf (h.final_throws s.loop.step_num) HookTag.finalTag } := by
  unfold _term
  simp only [cancel_comp, callFinal, tryHook_callRaw_eq, cancelLoopF_step_num]

/-- The hook invocations of one cycle's trace, error logs removed: background,
before, step, after, each observing the same step count `i`, in that order. -/
theorem hookEvents_cycleTrace (host : Host) (i : Nat) :
    hookEvents (cycleTrace host i) =
      [Ev.backgroundEv i, Ev.beforeEv i, Ev.stepEv i, Ev.afterEv i] := by
  cases h1 : host.background_throws i <;> cases h2 : host.before_throws i <;>
    cases h3 : host.step_throws i <;> cases h4 : host.after_throws i <;>
    simp [cycleTrace, h1, h2, h3, h4, errIf, hookEvents, List.filter, isHookEv]

theorem hookEvents_cons (e : Ev) (l : List Ev) :
    hookEvents (e :: l) = (if isHookEv e then [e] else []) ++ hookEvents l := by
  cases h : isHookEv e <;> simp [hookEvents, List.filter_cons, h]

/-- The `_run` congruence: its effect on the loop, the pending list, the id
counter and the clock depends only on those components — never on the trace
already recorded or on whether any wrapped hook throws — and the hook events
it appends are the same for every host behavior. -/
theorem run_core_congr (τ : Nat → ℚ) (h₁ h₂ : Host) (t : ℚ) (X Y : Sys)
    (hl : X.loop = Y.loop) (hp : X.pending = Y.pending)
    (hn : X.nextId = Y.nextId) (hc : X.tclock = Y.tclock)
    (htr : hookEvents X.trace = hookEvents Y.trace) :
    (_run τ h₁ t X).loop = (_run τ h₂ t Y).loop ∧
    (_run τ h₁ t X).pending = (_run τ h₂ t Y).pending ∧
    (_run τ h₁ t X).nextId = (_run τ h₂ t Y).nextId ∧
    (_run τ h₁ t X).tclock = (_run τ h₂ t Y).tclock ∧
    hookEvents (_run τ h₁ t X).trace = hookEvents (_run τ h₂ t Y).trace := by
  by_cases hr : X.loop.running = true
  · by_cases ht : _check_for_end_trigger X.loop = true
    · rw [run_term τ h₁ t X hr ht, run_term τ h₂ t Y (hl ▸ hr) (hl ▸ ht)]
      rw [term_comp, term_comp]
      refine ⟨?_, ?_, ?_, ?_, ?_⟩ <;>
        simp [hl, hp, hn, hc, htr, hookEvents_append, hookEvents_errIf,
          hookEvents_cons, isHookEv]
    · have ht2 : _check_for_end_trigger X.loop = false := by simpa using ht
      rw [run_cycle τ h₁ t X hr ht2, run_cycle τ h₂ t Y (hl ▸ hr) (hl ▸ ht2)]
      rw [request_comp, request_comp]
      refine ⟨?_, ?_, ?_, ?_, ?_⟩ <;>
        simp [hl, hp, hn, hc, htr, hookEvents_append, hookEvents_cycleTrace]
  · have hr2 : X.loop.running = false := by simpa using hr
    rw [run_not_running τ h₁ t X hr2, run_not_running τ h₂ t Y (hl ▸ hr2)]
    exact ⟨hl, hp, hn, hc, htr⟩

/-- C2 (amended): exceptions thrown by the hooks invoked from the scheduler's
wrapped call sites — `initial`, `background`, `before`, `step`, `after`,
`final` — are caught and swallowed: the resulting loop state, pending
scheduling and sequence of hook invocations after `_run`, `start()` and
`finish()` are identical for any two host throw-behaviors, and no hook of a
cycle is skipped. But `on_pause` and `on_play` are invoked without any
wrapping: when they throw, `pause()`/`play()` propagate the exception to
their caller, and a throwing `on_play` additionally prevents the immediate
cycle attempt (the step count does not advance and nothing is scheduled). -/
theorem hook_exception_isolation (τ : Nat → ℚ) (h₁ h₂ : Host) (t : ℚ)
    (s sp sq : Sys) :
    ((_run τ h₁ t s).loop = (_run τ h₂ t s).loop ∧
     (_run τ h₁ t s).pending = (_run τ h₂ t s).pending ∧
     hookEvents (_run τ h₁ t s).trace = hookEvents (_run τ h₂ t s).trace) ∧
    ((start τ h₁ s).loop = (start τ h₂ s).loop ∧
     (start τ h₁ s).pending = (start τ h₂ s).pending ∧
     hookEvents (start τ h₁ s).trace = hookEvents (start τ h₂ s).trace) ∧
    ((finish h₁ s).loop = (finish h₂ s).loop ∧
     (finish h₁ s).pending = (finish h₂ s).pending ∧
     hookEvents (finish h₁ s).trace = hookEvents (finish h₂ s).trace) ∧
    (sp.loop.initialized = true → sp.loop.running = true → sp.loop.kill = false →
      h₁.pause_throws sp.loop.step_num = true →
      (pause h₁ sp).2 = some HookTag.pauseTag) ∧
    (sq.loop.initialized = true → sq.loop.running = false → sq.loop.kill = false →
      h₁.play_throws sq.loop.step_num = true →
      (play τ h₁ sq).2 = some HookTag.playTag ∧
      get_step (play τ h₁ sq).1 = get_step sq ∧
      (play τ h₁ sq).1.pending = sq.pending) := by
  refine ⟨?_, ?_, ?_, ?_, ?_⟩
  · obtain ⟨a1, a2, a3, a4, a5⟩ := run_core_congr τ h₁ h₂ t s s rfl rfl rfl rfl rfl
    exact ⟨a1, a2, a5⟩
  · obtain ⟨tr₁, heq₁, htr₁, -⟩ := start_eq τ h₁ s
    obtain ⟨tr₂, heq₂, htr₂, -⟩ := start_eq τ h₂ s
    rw [heq₁, heq₂]
    have hc := run_core_congr τ h₁ h₂ (τ (s.tclock + 1))
      { s with
        loop := { s.loop with
          running := true, startTime := τ s.tclock
          kill := false, initialized := true, step_num := 0 }
        tclock := s.tclock + 2
        trace := tr₁ }
      { s with
        loop := { s.loop with
          running := true, startTime := τ s.tclock
          kill := false, initialized := true, step_num := 0 }
        tclock := s.tclock + 2
        trace := tr₂ }
      rfl rfl rfl rfl (by rw [htr₁, htr₂])
    exact ⟨hc.1, hc.2.1, hc.2.2.2.2⟩
  · by_cases hg : (!s.loop.initialized || s.loop.kill) = true
    · simp [finish, hg]
    · unfold finish
      rw [if_neg hg, if_neg hg]
      simp [term_comp, hookEvents_append, hookEvents_errIf, hookEvents_cons,
        isHookEv]
  · intro hinit hrun hkill hthrow
    unfold pause
    simp [hinit, hrun, hkill, cancel_comp, callOnPause, callRaw,
      cancelLoopF_step_num, hthrow]
  · intro hinit hrun hkill hthrow
    unfold play
    simp [hinit, hrun, hkill, callOnPlay, callRaw, perfNow, hthrow,
      get_step, logEv]

theorem cancelLoopF_flags (l : StepLoop) :
    (cancelLoopF l).running = l.running ∧ (cancelLoopF l).paused = l.paused ∧
    (cancelLoopF l).kill = l.kill ∧ (cancelLoopF l).initialized = l.initialized := by
  unfold cancelLoopF
  split
  · exact ⟨rfl, rfl, rfl, rfl⟩
  · split <;> exact ⟨rfl, rfl, rfl, rfl⟩

theorem requestLoopF_flags (l : StepLoop) (nid : Nat) :
    (requestLoopF l nid).running = l.running ∧
    (requestLoopF l nid).paused = l.paused ∧
    (requestLoopF l nid).kill = l.kill ∧
    (requestLoopF l nid).initialized = l.initialized := by
  unfold requestLoopF
  split
  · exact ⟨rfl, rfl, rfl, rfl⟩
  · split <;> exact ⟨rfl, rfl, rfl, rfl⟩

/-- After `_run`, the three lifecycle flags are either untouched (idle tick or
completed cycle) or forced to the terminated combination. -/
theorem run_flags (τ : Nat → ℚ) (host : Host) (t : ℚ) (s : Sys) :
    ((_run τ host t s).loop.running = s.loop.running ∧
     (_run τ host t s).loop.paused = s.loop.paused ∧
     (_run τ host t s).loop.kill = s.loop.kill) ∨
    ((_run τ host t s).loop.running = false ∧
     (_run τ host t s).loop.paused = false ∧
     (_run τ host t s).loop.kill = true) := by
  by_cases hr : s.loop.running = true
  · by_cases ht : _check_for_end_trigger s.loop = true
    · right
      rw [run_term τ host t s hr ht]
      obtain ⟨t1, t2, t3, -⟩ := term_fields host s
      exact ⟨t1, t2, t3⟩
    · left
      have ht2 : _check_for_end_trigger s.loop = false := by simpa using ht
      rw [run_cycle τ host t s hr ht2, request_comp]
      obtain ⟨q1, q2, q3, -⟩ := requestLoopF_flags
        { s.loop with
          step_num := s.loop.step_num + 1
          lastStepDuration := t - s.loop.lastStepTime
          lastStepTime := t } _
      exact ⟨q1, q2, q3⟩
  · left
    have hr2 : s.loop.running = false := by simpa using hr
    rw [run_not_running τ host t s hr2]
    exact ⟨rfl, rfl, rfl⟩

/-- The `pause()` either does nothing at all or moves to the paused combination
(and its guard then guarantees the kill flag was off). -/
theorem pause_cases (host : Host) (s : Sys) :
    (pause host s).1 = s ∨
    ((pause host s).1.loop.running = false ∧
     (pause host s).1.loop.paused = true ∧
     (pause host s).1.loop.kill = s.loop.kill ∧ s.loop.kill = false) := by
  unfold pause
  by_cases hg : (!s.loop.initialized || !s.loop.running || s.loop.kill) = true
  · left
    rw [if_pos hg]
  · have hgi : s.loop.initialized = true ∧ s.loop.running = true ∧
        s.loop.kill = false := by
      rcases hx : s.loop.initialized <;> rcases hy : s.loop.running <;>
        rcases hz : s.loop.kill <;> simp_all
    right
    rw [if_neg hg]
    obtain ⟨c1, c2, c3⟩ := cancelLoopF_flags
      { s.loop with running := false, paused := true }
    refine ⟨?_, ?_, ?_, hgi.2.2⟩ <;>
      simp [callOnPause, callRaw, logEv, cancel_comp, c1, c2, c3]

/-- The `play()` either does nothing, or reaches the running combination (kill
off, either after a thrown `on_play` or after an idle/completed cycle), or
the inline cycle terminates the loop. -/
theorem play_cases (τ : Nat → ℚ) (host : Host) (s : Sys) :
    (play τ host s).1 = s ∨
    ((play τ host s).1.loop.running = true ∧
     (play τ host s).1.loop.paused = false ∧
     (play τ host s).1.loop.kill = false) ∨
    ((play τ host s).1.loop.running = false ∧
     (play τ host s).1.loop.paused = false ∧
     (play τ host s).1.loop.kill = true) := by
  unfold play
  by_cases hg : (!s.loop.initialized || s.loop.running || s.loop.kill) = true
  · left
    rw [if_pos hg]
  · have hgi : s.loop.initialized = true ∧ s.loop.running = false ∧
        s.loop.kill = false := by
      rcases hx : s.loop.initialized <;> rcases hy : s.loop.running <;>
        rcases hz : s.loop.kill <;> simp_all
    rw [if_neg hg]
    simp only [perfNow, callOnPlay, callRaw, logEv]
    by_cases hthrow : host.play_throws s.loop.step_num = true
    · right; left
      simp [hthrow, hgi.2.2]
    · have hthrow2 : host.play_throws s.loop.step_num = false := by
        simpa using hthrow
      simp only [hthrow2, Bool.false_eq_true, if_false]
      rcases run_flags τ host (τ (s.tclock + 1))
          { s with
            loop := { s.loop with
              running := true, paused := false
              startTime := τ s.tclock - (s.loop.step_num : ℚ) * s.loop.interval }
            tclock := s.tclock + 1 + 1
            trace := s.trace ++ [Ev.playEv s.loop.step_num] }
        with ⟨a, b, c⟩ | ⟨a, b, c⟩
      · right; left
        exact ⟨a.trans rfl, b.trans rfl, c.trans hgi.2.2⟩
      · right; right
        exact ⟨a, b, c⟩

/-- The `finish()` either does nothing or reaches the terminated combination. -/
theorem finish_cases (host : Host) (s : Sys) :
    finish host s = s ∨
    ((finish host s).loop.running = false ∧
     (finish host s).loop.paused = false ∧
     (finish host s).loop.kill = true) := by
  unfold finish
  by_cases hg : (!s.loop.initialized || s.loop.kill) = true
  · left
    rw [if_pos hg]
  · right
    rw [if_neg hg]
    obtain ⟨t1, t2, t3, -⟩ := term_fields host
      (_cancel_next_step
        { s with loop := { s.loop with running := false, paused := false, kill := true } })
    exact ⟨t1, t2, t3⟩

/-- The `start()` leaves the loop running with the kill flag cleared and the
paused flag untouched, unless its inline first tick immediately terminates. -/
theorem start_cases (τ : Nat → ℚ) (host : Host) (s : Sys) :
    ((start τ host s).loop.running = true ∧
     (start τ host s).loop.paused = s.loop.paused ∧
     (start τ host s).loop.kill = false) ∨
    ((start τ host s).loop.running = false ∧
     (start τ host s).loop.paused = false ∧
     (start τ host s).loop.kill = true) := by
  obtain ⟨tr, heq, -⟩ := start_eq τ host s
  rw [heq]
  rcases run_flags τ host (τ (s.tclock + 1))
      { s with
        loop := { s.loop with
          running := true, startTime := τ s.tclock
          kill := false, initialized := true, step_num := 0 }
        tclock := s.tclock + 2
        trace := tr }
    with ⟨a, b, c⟩ | ⟨a, b, c⟩
  · left
    exact ⟨a.trans rfl, b.trans rfl, c.trans rfl⟩
  · right
    exact ⟨a, b, c⟩

/-- The `extend_lifespan` never touches the running/paused flags and can only
clear the kill flag, never set it. -/
theorem extend_flags (o : Option ℚ) (s : Sys) :
    (extend_lifespan o s).1.loop.running = s.loop.running ∧
    (extend_lifespan o s).1.loop.paused = s.loop.paused ∧
    ((extend_lifespan o s).1.loop.kill = s.loop.kill ∨
     (extend_lifespan o s).1.loop.kill = false) := by
  unfold extend_lifespan
  by_cases hi : (!s.loop.initialized) = true
  · rw [if_pos hi]
    exact ⟨rfl, rfl, Or.inl rfl⟩
  · rw [if_neg hi]
    cases o with
    | none => exact ⟨rfl, rfl, Or.inl rfl⟩
    | some d =>
      dsimp only
      split
      · exact ⟨rfl, rfl, Or.inr rfl⟩
      · exact ⟨rfl, rfl, Or.inl rfl⟩

/-- Firing a pending callback either does nothing, runs an ordinary tick
(flags untouched), or terminates the loop. -/
theorem fireAt_flags (τ : Nat → ℚ) (host : Host) (k : Nat) (s : Sys) :
    ((fireAt τ host k s).loop.running = s.loop.running ∧
     (fireAt τ host k s).loop.paused = s.loop.paused ∧
     (fireAt τ host k s).loop.kill = s.loop.kill) ∨
    ((fireAt τ host k s).loop.running = false ∧
     (fireAt τ host k s).loop.paused = false ∧
     (fireAt τ host k s).loop.kill = true) := by
  unfold fireAt
  cases hget : s.pending.get? k with
  | none =>
    left
    simp [hget]
  | some h =>
    simp only [hget]
    cases h with
    | timer id delay =>
      rcases run_flags τ host (τ s.tclock)
          { s with pending := s.pending.eraseIdx k, tclock := s.tclock + 1 }
        with ⟨a, b, c⟩ | ⟨a, b, c⟩
      · left; exact ⟨a.trans rfl, b.trans rfl, c.trans rfl⟩
      · right; exact ⟨a, b, c⟩
    | raf id =>
      rcases run_flags τ host (τ s.tclock)
          { s with pending := s.pending.eraseIdx k, tclock := s.tclock + 1 }
        with ⟨a, b, c⟩ | ⟨a, b, c⟩
      · left; exact ⟨a.trans rfl, b.trans rfl, c.trans rfl⟩
      · right; exact ⟨a, b, c⟩

/-- Every operation preserves the invariant "kill implies neither running nor
paused". -/
theorem applyOp_kill_inv (τ : Nat → ℚ) (host : Host) (op : Op) (s : Sys)
    (h : s.loop.kill = true → s.loop.running = false ∧ s.loop.paused = false) :
    (applyOp τ host op s).loop.kill = true →
      (applyOp τ host op s).loop.running = false ∧
      (applyOp τ host op s).loop.paused = false := by
  cases op with
  | startOp =>
    show (start τ host s).loop.kill = true →
      (start τ host s).loop.running = false ∧ (start τ host s).loop.paused = false
    rcases start_cases τ host s with ⟨a, b, c⟩ | ⟨a, b, c⟩
    · intro hk
      rw [c] at hk
      simp at hk
    · exact fun _ => ⟨a, b⟩
  | pauseOp =>
    show (pause host s).1.loop.kill = true →
      (pause host s).1.loop.running = false ∧ (pause host s).1.loop.paused = false
    rcases pause_cases host s with heq | ⟨a, b, c, d⟩
    · rw [heq]
      exact h
    · intro hk
      rw [c, d] at hk
      simp at hk
  | playOp =>
    show (play τ host s).1.loop.kill = true →
      (play τ host s).1.loop.running = false ∧ (play τ host s).1.loop.paused = false
    rcases play_cases τ host s with heq | ⟨a, b, c⟩ | ⟨a, b, c⟩
    · rw [heq]
      exact h
    · intro hk
      rw [c] at hk
      simp at hk
    · exact fun _ => ⟨a, b⟩
  | finishOp =>
    show (finish host s).loop.kill = true →
      (finish host s).loop.running = false ∧ (finish host s).loop.paused = false
    rcases finish_cases host s with heq | ⟨a, b, c⟩
    · rw [heq]
      exact h
    · exact fun _ => ⟨a, b⟩
  | setSpsOp q => exact h
  | setRAFOp b => exact h
  | extendOp o =>
    show (extend_lifespan o s).1.loop.kill = true → _ ∧ _
    obtain ⟨e1, e2, e3⟩ := extend_flags o s
    intro hk
    cases e3 with
    | inl hc =>
      rw [hc] at hk
      obtain ⟨hr, hp⟩ := h hk
      exact ⟨e1.trans hr, e2.trans hp⟩
    | inr hc =>
      rw [hc] at hk
      simp at hk
  | fireOp k =>
    show (fireAt τ host k s).loop.kill = true →
      (fireAt τ host k s).loop.running = false ∧ (fireAt τ host k s).loop.paused = false
    rcases fireAt_flags τ host k s with ⟨a, b, c⟩ | ⟨a, b, c⟩
    · intro hk
      rw [c] at hk
      obtain ⟨hr, hp⟩ := h hk
      exact ⟨a.trans hr, b.trans hp⟩
    · exact fun _ => ⟨a, b⟩

/-- The kill-flag invariant holds in every reachable state. -/
theorem reachable_kill_inv (s : Sys) (h : Reachable s) :
    s.loop.kill = true → s.loop.running = false ∧ s.loop.paused = false := by
  induction h with
  | construct sps lifespan RAF RAFAvail =>
    intro hk
    simp [Sys.mkNew, StepLoop.new] at hk
  | step τ host op s hs ih => exact applyOp_kill_inv τ host op s ih

/-- Every operation other than `start()` preserves running/paused mutual
exclusion. -/
theorem applyOp_me (τ : Nat → ℚ) (host : Host) (op : Op) (s : Sys)
    (hop : op ≠ Op.startOp)
    (h : s.loop.running = true → s.loop.paused = false) :
    (applyOp τ host op s).loop.running = true →
      (applyOp τ host op s).loop.paused = false := by
  cases op with
  | startOp => exact absurd rfl hop
  | pauseOp =>
    show (pause host s).1.loop.running = true → (pause host s).1.loop.paused = false
    rcases pause_cases host s with heq | ⟨a, b, c, d⟩
    · rw [heq]
      exact h
    · intro hr
      rw [a] at hr
      simp at hr
  | playOp =>
    show (play τ host s).1.loop.running = true → (play τ host s).1.loop.paused = false
    rcases play_cases τ host s with heq | ⟨a, b, c⟩ | ⟨a, b, c⟩
    · rw [heq]
      exact h
    · exact fun _ => b
    · exact fun _ => b
  | finishOp =>
    show (finish host s).loop.running = true → (finish host s).loop.paused = false
    rcases finish_cases host s with heq | ⟨a, b, c⟩
    · rw [heq]
      exact h
    · exact fun _ => b
  | setSpsOp q => exact h
  | setRAFOp b => exact h
  | extendOp o =>
    show (extend_lifespan o s).1.loop.running = true → _
    obtain ⟨e1, e2, e3⟩ := extend_flags o s
    intro hr
    rw [e1] at hr
    exact e2.trans (h hr)
  | fireOp k =>
    show (fireAt τ host k s).loop.running = true → (fireAt τ host k s).loop.paused = false
    rcases fireAt_flags τ host k s with ⟨a, b, c⟩ | ⟨a, b, c⟩
    · intro hr
      rw [a] at hr
      exact b.trans (h hr)
    · exact fun _ => b

/-- The `start()` preserves mutual exclusion exactly when the loop is not
paused. -/
theorem start_me (τ : Nat → ℚ) (host : Host) (s : Sys)
    (hp : s.loop.paused = false) :
    (start τ host s).loop.running = true → (start τ host s).loop.paused = false := by
  rcases start_cases τ host s with ⟨a, b, c⟩ | ⟨a, b, c⟩
  · exact fun _ => b.trans hp
  · exact fun _ => b

/-- C1 counterexample: a lifespan of `0` is falsy in the termination check
(`this._lifespan && ...`), so the loop never auto-terminates — after three
fired ticks it is still running with `step_count = 4`, although
`step_count >= lifespan` held from the very start; the claim's promise of
termination with `step_count == 0` fails. -/
theorem lifespan_zero_never_terminates :
    is_running (runFires τ0 quietHost 3 (start τ0 quietHost
      (Sys.mkNew (StepLoop.new 60 (some 0) false false)))) = true ∧
    get_step (runFires τ0 quietHost 3 (start τ0 quietHost
      (Sys.mkNew (StepLoop.new 60 (some 0) false false)))) = 4 := by
  decide

theorem request_get_step (τ : Nat → ℚ) (t : ℚ) (X : Sys) :
    get_step (_request_next_step τ t X) = X.loop.step_num :=
  (request_fields τ t X).2.2.2.2.1

theorem request_trace_eq (τ : Nat → ℚ) (t : ℚ) (X : Sys) :
    (_request_next_step τ t X).trace = X.trace :=
  (request_fields τ t X).2.2.2.2.2.2

/-- The `_run` never changes the initialized flag. -/
theorem run_initialized (τ : Nat → ℚ) (host : Host) (t : ℚ) (s : Sys) :
    (_run τ host t s).loop.initialized = s.loop.initialized := by
  by_cases hr : s.loop.running = true
  · by_cases ht : _check_for_end_trigger s.loop = true
    · rw [run_term τ host t s hr ht]
      exact (term_fields host s).2.2.2.1
    · have ht2 : _check_for_end_trigger s.loop = false := by simpa using ht
      rw [run_cycle τ host t s hr ht2, request_comp]
      exact (requestLoopF_flags _ _).2.2.2
  · have hr2 : s.loop.running = false := by simpa using hr
    rw [run_not_running τ host t s hr2]

/-- The `_run` only ever appends to the trace. -/
theorem run_trace_ext (τ : Nat → ℚ) (host : Host) (t : ℚ) (s : Sys) :
    ∃ l, (_run τ host t s).trace = s.trace ++ l := by
  by_cases hr : s.loop.running = true
  · by_cases ht : _check_for_end_trigger s.loop = true
    · rw [run_term τ host t s hr ht, term_comp]
      exact ⟨[Ev.finalEv s.loop.step_num] ++
        errIf (host.final_throws s.loop.step_num) HookTag.finalTag, by simp⟩
    · have ht2 : _check_for_end_trigger s.loop = false := by simpa using ht
      rw [run_cycle τ host t s hr ht2, request_trace_eq]
      exact ⟨cycleTrace host s.loop.step_num, rfl⟩
  · have hr2 : s.loop.running = false := by simpa using hr
    rw [run_not_running τ host t s hr2]
    exact ⟨[], by simp⟩

/-- The end trigger is off whenever the loop is alive and the lifespan value
strictly exceeds the step count. -/
theorem trigger_off_of_gt (l : StepLoop) (v : ℚ) (hkill : l.kill = false)
    (hl : l.lifespan = some v) (hv : (l.step_num : ℚ) < v) :
    _check_for_end_trigger l = false := by
  unfold _check_for_end_trigger
  rw [hkill, hl]
  have h1 : ¬ ((l.step_num : ℚ) ≥ v) := not_le.mpr hv
  simp [h1]

/-- C5: a completed cycle runs the hooks in the fixed order background,
before, step, after — each recorded event carrying the value `get_step()`
returns inside that hook, which is the cycle index `i` — and only after all
of them does the step count increase, by exactly 1. -/
theorem cycle_hook_order (τ : Nat → ℚ) (host : Host) (t : ℚ) (s : Sys)
    (hr : s.loop.running = true) (ht : _check_for_end_trigger s.loop = false) :
    get_step (_run τ host t s) = get_step s + 1 ∧
    hookEvents (_run τ host t s).trace =
      hookEvents s.trace ++
        [Ev.backgroundEv (get_step s), Ev.beforeEv (get_step s),
         Ev.stepEv (get_step s), Ev.afterEv (get_step s)] := by
  rw [run_cycle τ host t s hr ht]
  constructor
  · rw [request_get_step]
    rfl
  · rw [request_trace_eq]
    show hookEvents (s.trace ++ cycleTrace host s.loop.step_num) = _
    rw [hookEvents_append, hookEvents_cycleTrace]
    rfl

/-- C5 witness: the first fired cycle of the started demo loop. -/
theorem cycle_hook_order_witness :
    get_step (_run τ0 quietHost 0 demoStarted) = get_step demoStarted + 1 ∧
    hookEvents (_run τ0 quietHost 0 demoStarted).trace =
      hookEvents demoStarted.trace ++
        [Ev.backgroundEv (get_step demoStarted), Ev.beforeEv (get_step demoStarted),
         Ev.stepEv (get_step demoStarted), Ev.afterEv (get_step demoStarted)] :=
  cycle_hook_order τ0 quietHost 0 demoStarted (by decide) (by decide)

/-- C6: with the fixed-interval strategy in effect (the display-sync toggle
off or unavailable), every scheduling decision computes the ideal absolute
next-cycle time `start_time + step_count * interval` and registers a single
one-shot timer with delay `max 0 (ideal - now)`, recording its handle; and
`interval` is `1000 / rate` as set by the constructor and `set_sps`. -/
theorem fixed_interval_scheduling (τ : Nat → ℚ) (t : ℚ) (s : Sys)
    (sps q : ℚ) (lifespan : Option ℚ) (RAF avail : Bool)
    (hr : s.loop.running = true)
    (hR : (s.loop.RAFActive && s.loop.RAFAvailable) = false) :
    (_request_next_step τ t s).pending =
      s.pending ++ [Handle.timer s.nextId
        (max 0 (s.loop.startTime + (s.loop.step_num : ℚ) * s.loop.interval -
          τ s.tclock))] ∧
    (_request_next_step τ t s).loop.timeoutId = some s.nextId ∧
    (_request_next_step τ t s).nextId = s.nextId + 1 ∧
    (StepLoop.new sps lifespan RAF avail).interval = 1000 / sps ∧
    (set_sps q s).1.loop.interval = 1000 / q := by
  refine ⟨?_, ?_, ?_, rfl, rfl⟩ <;>
  · unfold _request_next_step
    simp [hr, hR, perfNow]

/-- C6 witness: the scheduling decision taken from the started demo loop. -/
theorem fixed_interval_scheduling_witness :
    (_request_next_step τ0 0 demoStarted).pending =
      demoStarted.pending ++ [Handle.timer demoStarted.nextId
        (max 0 (demoStarted.loop.startTime +
          (demoStarted.loop.step_num : ℚ) * demoStarted.loop.interval -
          τ0 demoStarted.tclock))] ∧
    (StepLoop.new 60 none false false).interval = 1000 / 60 :=
  ⟨(fixed_interval_scheduling τ0 0 demoStarted 60 60 none false false
      (by decide) (by decide)).1,
   (fixed_interval_scheduling τ0 0 demoStarted 60 60 none false false
      (by decide) (by decide)).2.2.2.1⟩

/-- The `play()` in a valid state whose `on_play` returns normally: set the
flags, re-anchor `start_time`, invoke the hook, then run one tick. -/
theorem play_eq_of_valid (τ : Nat → ℚ) (host : Host) (s : Sys)
    (hi : s.loop.initialized = true) (hrn : s.loop.running = false)
    (hk : s.loop.kill = false)
    (hth : host.play_throws s.loop.step_num = false) :
    play τ host s =
      (_run τ host (τ (s.tclock + 1))
        { s with
          loop := { s.loop with
            running := true, paused := false
            startTime := τ s.tclock - (s.loop.step_num : ℚ) * s.loop.interval }
          tclock := s.tclock + 2
          trace := s.trace ++ [Ev.playEv s.loop.step_num] }, none) := by
  unfold play
  have hg : ¬ ((!s.loop.initialized || s.loop.running || s.loop.kill) = true) := by
    simp [hi, hrn, hk]
  rw [if_neg hg]
  simp only [perfNow, callOnPlay, callRaw, logEv, hth, Bool.false_eq_true,
    if_false]

/-- C7: `play()` is a silent no-op unless `initialized && !running && !kill`;
when valid (and `on_play` returns normally) it sets `running`, clears
`paused`, recomputes `start_time = now - step_count * interval`, invokes the
`on_play` hook, and then immediately attempts to run a cycle. -/
theorem play_spec (τ : Nat → ℚ) (host : Host) (s : Sys) :
    ((!s.loop.initialized || s.loop.running || s.loop.kill) = true →
      play τ host s = (s, none)) ∧
    (s.loop.initialized = true → s.loop.running = false → s.loop.kill = false →
      host.play_throws s.loop.step_num = false →
      play τ host s =
        (_run τ host (τ (s.tclock + 1))
          { s with
            loop := { s.loop with
              running := true, paused := false
              startTime := τ s.tclock - (s.loop.step_num : ℚ) * s.loop.interval }
            tclock := s.tclock + 2
            trace := s.trace ++ [Ev.playEv s.loop.step_num] }, none)) := by
  constructor
  · intro hg
    unfold play
    rw [if_pos hg]
  · intro hi hrn hk hth
    exact play_eq_of_valid τ host s hi hrn hk hth

/-- C7 witness: `play()` on the paused demo loop. -/
theorem play_spec_witness :
    play τ0 quietHost demoPaused =
      (_run τ0 quietHost (τ0 (demoPaused.tclock + 1))
        { demoPaused with
          loop := { demoPaused.loop with
            running := true, paused := false
            startTime := τ0 demoPaused.tclock -
              (demoPaused.loop.step_num : ℚ) * demoPaused.loop.interval }
          tclock := demoPaused.tclock + 2
          trace := demoPaused.trace ++ [Ev.playEv demoPaused.loop.step_num] },
        none) :=
  (play_spec τ0 quietHost demoPaused).2 (by decide) (by decide) (by decide)
    (by decide)

theorem cancelPendF_nil (l : StepLoop) : cancelPendF l [] = [] := by
  unfold cancelPendF clearTimeoutEnv cancelFrameEnv
  split
  · rfl
  · split <;> rfl

/-- C4 (amended): the cancellation in `pause()`/`finish()` dispatches on the
*current* strategy toggle, not on a tag recorded when the tick was scheduled.
When the toggle still matches the pending tick's strategy — a timer pending
with the toggle off, or a frame request pending with the toggle on — the
matching cancel primitive removes it and nothing stays pending. (When the
toggle was flipped in between, cancellation misses; see the
counterexample.) -/
theorem cancel_matching_strategy (host : Host) (s : Sys) (id : Nat)
    (hi : s.loop.initialized = true) (hr : s.loop.running = true)
    (hk : s.loop.kill = false) (hid : (id != 0) = true) :
    (s.loop.RAFActive = false → s.loop.timeoutId = some id →
      (∃ δ, s.pending = [Handle.timer id δ]) →
      (pause host s).1.pending = [] ∧ (finish host s).pending = []) ∧
    (s.loop.RAFActive = true → s.loop.RAFId = some id →
      s.pending = [Handle.raf id] →
      (pause host s).1.pending = [] ∧ (finish host s).pending = []) := by
  have hgp : ¬ ((!s.loop.initialized || !s.loop.running || s.loop.kill) = true) := by
    simp [hi, hr, hk]
  have hgf : ¬ ((!s.loop.initialized || s.loop.kill) = true) := by
    simp [hi, hk]
  constructor
  · intro hRAF hTid hex
    obtain ⟨δ, hp⟩ := hex
    constructor
    · unfold pause
      rw [if_neg hgp]
      simp [callOnPause, callRaw, logEv, cancel_comp, cancelPendF, truthyId,
        hRAF, hTid, hid, hp, clearTimeoutEnv, List.filter]
    · unfold finish
      rw [if_neg hgf]
      simp only [cancel_comp, term_comp]
      simp [cancelPendF, cancelLoopF, truthyId, hRAF, hTid, hid, hp,
        clearTimeoutEnv, cancelFrameEnv, List.filter]
  · intro hRAF hRid hp
    constructor
    · unfold pause
      rw [if_neg hgp]
      simp [callOnPause, callRaw, logEv, cancel_comp, cancelPendF, truthyId,
        hRAF, hRid, hid, hp, cancelFrameEnv, List.filter]
    · unfold finish
      rw [if_neg hgf]
      simp only [cancel_comp, term_comp]
      simp [cancelPendF, cancelLoopF, truthyId, hRAF, hRid, hid, hp,
        clearTimeoutEnv, cancelFrameEnv, List.filter]

/-- C4 witness: on the started demo loop (timer pending, toggle off),
`pause()` and `finish()` cancel the pending timer. -/
theorem cancel_matching_strategy_witness :
    (pause quietHost demoStarted).1.pending = [] ∧
    (finish quietHost demoStarted).pending = [] :=
  (cancel_matching_strategy quietHost demoStarted 1 (by decide)
    (by decide) (by decide) (by decide)).1 (by decide) (by decide)
    (by exact ⟨_, rfl⟩)

/-- C4 counterexample: flip the strategy toggle while the timer scheduled
under the old strategy is still pending, then `pause()`: `_cancel_next_step`
consults the new toggle, matches neither branch, and cancels nothing — one
handle stays pending, refuting "pause() always cancels the pending tick"; a
subsequent `play()` then schedules a frame request on top of the stale
timer, so two scheduling handles are pending at once, refuting "at most one
pending scheduling handle exists at any time". -/
theorem stale_toggle_defeats_cancellation :
    (pause quietHost (set_use_RAF true demoRAFStarted).1).1.pending.length = 1 ∧
    (play τ0 quietHost
      ((pause quietHost (set_use_RAF true demoRAFStarted).1).1)).1.pending.length = 2 := by
  decide

theorem extend_uninit_eq (s : Sys) (o : Option ℚ)
    (hi : s.loop.initialized = false) : extend_lifespan o s = (s, none) := by
  unfold extend_lifespan
  simp [hi]

theorem extend_none_eq (s : Sys) (hi : s.loop.initialized = true) :
    extend_lifespan none s =
      ({ s with loop := { s.loop with lifespan := none } }, none) := by
  unfold extend_lifespan
  simp [hi]

theorem extend_some_eq (s : Sys) (d : ℚ) (hi : s.loop.initialized = true) :
    extend_lifespan (some d) s =
      ({ s with loop := { s.loop with
          lifespan := some (jsOrZero s.loop.lifespan + d)
          kill := s.loop.kill &&
            !(decide (jsOrZero s.loop.lifespan + d > (s.loop.step_num : ℚ))) } },
       some (jsOrZero s.loop.lifespan + d)) := by
  unfold extend_lifespan
  cases hk : s.loop.kill <;>
    cases hd : decide (jsOrZero s.loop.lifespan + d > (s.loop.step_num : ℚ)) <;>
    simp [hi, hk, hd]

/-- C8: `extend_lifespan` returns the unset sentinel and changes nothing on
an uninitialized loop; a non-numeric argument makes the lifespan unlimited;
a numeric `d` adds `d` to the current lifespan (unset counting as 0) and
returns the new value, clearing the kill flag exactly when it was set and the
new lifespan exceeds the step count. Concretely, a loop auto-terminated at
lifespan 2 extended by 2 reports lifespan 4, is revived, and `play()` resumes
cycling until `step_count >= 4`. -/
theorem extend_lifespan_spec (s : Sys) (o : Option ℚ) (d : ℚ) :
    (s.loop.initialized = false → extend_lifespan o s = (s, none)) ∧
    (s.loop.initialized = true →
      extend_lifespan none s =
        ({ s with loop := { s.loop with lifespan := none } }, none)) ∧
    (s.loop.initialized = true →
      (extend_lifespan (some d) s).2 = some (jsOrZero s.loop.lifespan + d) ∧
      get_lifespan (extend_lifespan (some d) s).1 =
        some (jsOrZero s.loop.lifespan + d) ∧
      (extend_lifespan (some d) s).1.loop.kill =
        (s.loop.kill &&
          !(decide (jsOrZero s.loop.lifespan + d > (s.loop.step_num : ℚ))))) ∧
    (get_step lifespan2Done = 2 ∧ is_running lifespan2Done = false ∧
     lifespan2Done.loop.kill = true ∧
     (extend_lifespan (some 2) lifespan2Done).2 = some 4 ∧
     get_lifespan lifespan2Extended = some 4 ∧
     lifespan2Extended.loop.kill = false ∧
     get_step lifespan2Resumed = 4 ∧ is_running lifespan2Resumed = false ∧
     lifespan2Resumed.loop.kill = true) := by
  refine ⟨fun hi => extend_uninit_eq s o hi, fun hi => extend_none_eq s hi,
    fun hi => ?_, ?_⟩
  · rw [extend_some_eq s d hi]
    exact ⟨rfl, rfl, rfl⟩
  · have hi2 : lifespan2Done.loop.initialized = true := by decide
    have hl2 : lifespan2Done.loop.lifespan = some 2 := by decide
    have hstep2 : lifespan2Done.loop.step_num = 2 := by decide
    have hkill2 : lifespan2Done.loop.kill = true := by decide
    have hext := extend_some_eq lifespan2Done 2 hi2
    rw [hl2, hstep2, hkill2] at hext
    have h4 : jsOrZero (some 2) + (2 : ℚ) = 4 := by norm_num [jsOrZero]
    rw [h4] at hext
    refine ⟨by decide, by decide, hkill2, ?_, ?_, ?_, ?_, ?_, ?_⟩
    · rw [hext]
    · show get_lifespan (extend_lifespan (some 2) lifespan2Done).1 = some 4
      rw [hext]
      rfl
    · show (extend_lifespan (some 2) lifespan2Done).1.loop.kill = false
      rw [hext]
      decide
    · show get_step (runFires τ0 quietHost 2
        ((play τ0 quietHost (extend_lifespan (some 2) lifespan2Done).1).1)) = 4
      rw [hext]
      decide
    · show is_running (runFires τ0 quietHost 2
        ((play τ0 quietHost (extend_lifespan (some 2) lifespan2Done).1).1)) = false
      rw [hext]
      decide
    · show (runFires τ0 quietHost 2
        ((play τ0 quietHost (extend_lifespan (some 2) lifespan2Done).1).1)).loop.kill = true
      rw [hext]
      decide

/-- C8 witness: `extend_lifespan` on the started demo loop. -/
theorem extend_lifespan_spec_witness :
    (extend_lifespan (some 5) demoStarted).2 =
      some (jsOrZero demoStarted.loop.lifespan + 5) ∧
    extend_lifespan none demoStarted =
      ({ demoStarted with
        loop := { demoStarted.loop with lifespan := none } }, none) :=
  ⟨((extend_lifespan_spec demoStarted none 5).2.2.1 (by decide)).1,
   (extend_lifespan_spec demoStarted none 5).2.1 (by decide)⟩

/-- C9: `pause()`, `play()` and `finish()` called in an invalid state are
silent no-ops — no hook is invoked, nothing is returned, every field is
unchanged — while `start()` is valid from any state: it always marks the
loop initialized and always invokes the initialization hook. -/
theorem invalid_state_noops (τ : Nat → ℚ) (host : Host) (s : Sys) :
    ((!s.loop.initialized || !s.loop.running || s.loop.kill) = true →
      pause host s = (s, none)) ∧
    ((!s.loop.initialized || s.loop.running || s.loop.kill) = true →
      play τ host s = (s, none)) ∧
    ((!s.loop.initialized || s.loop.kill) = true → finish host s = s) ∧
    (start τ host s).loop.initialized = true ∧
    (∃ l, (start τ host s).trace = s.trace ++ Ev.initialEv 0 :: l) := by
  refine ⟨?_, ?_, ?_, ?_, ?_⟩
  · intro hg
    unfold pause
    rw [if_pos hg]
  · intro hg
    unfold play
    rw [if_pos hg]
  · intro hg
    unfold finish
    rw [if_pos hg]
  · obtain ⟨tr, heq, -⟩ := start_eq τ host s
    rw [heq, run_initialized]
  · obtain ⟨tr, heq, -, htr⟩ := start_eq τ host s
    rw [heq]
    obtain ⟨l, hl⟩ := run_trace_ext τ host (τ (s.tclock + 1))
      { s with
        loop := { s.loop with
          running := true, startTime := τ s.tclock
          kill := false, initialized := true, step_num := 0 }
        tclock := s.tclock + 2
        trace := tr }
    refine ⟨errIf (host.initial_throws 0) HookTag.initialTag ++ l, ?_⟩
    rw [hl]
    show tr ++ l = _
    rw [htr]
    simp

/-- C9 witness: no-ops on the terminated demo loop, and `start()` on it. -/
theorem invalid_state_noops_witness :
    pause quietHost demoFinished = (demoFinished, none) ∧
    play τ0 quietHost demoFinished = (demoFinished, none) ∧
    finish quietHost demoFinished = demoFinished ∧
    (start τ0 quietHost demoFinished).loop.initialized = true :=
  ⟨(invalid_state_noops τ0 quietHost demoFinished).1 (by decide),
   (invalid_state_noops τ0 quietHost demoFinished).2.1 (by decide),
   (invalid_state_noops τ0 quietHost demoFinished).2.2.1 (by decide),
   (invalid_state_noops τ0 quietHost demoFinished).2.2.2.1⟩

/-- A valid `play()` whose loop is strictly below its lifespan runs a full
cycle: the step count advances by one and the loop is left running. -/
theorem play_runs_cycle (τ : Nat → ℚ) (host : Host) (s : Sys) (v : ℚ)
    (hi : s.loop.initialized = true) (hrn : s.loop.running = false)
    (hk : s.loop.kill = false) (hth : host.play_throws s.loop.step_num = false)
    (hl : s.loop.lifespan = some v) (hv : (s.loop.step_num : ℚ) < v) :
    get_step (play τ host s).1 = get_step s + 1 ∧
    is_running (play τ host s).1 = true := by
  rw [play_eq_of_valid τ host s hi hrn hk hth]
  have hrX : ({ s with
      loop := { s.loop with
        running := true, paused := false
        startTime := τ s.tclock - (s.loop.step_num : ℚ) * s.loop.interval }
      tclock := s.tclock + 2
      trace := s.trace ++ [Ev.playEv s.loop.step_num] } : Sys).loop.running = true := rfl
  have htrig : _check_for_end_trigger ({ s with
      loop := { s.loop with
        running := true, paused := false
        startTime := τ s.tclock - (s.loop.step_num : ℚ) * s.loop.interval }
      tclock := s.tclock + 2
      trace := s.trace ++ [Ev.playEv s.loop.step_num] } : Sys).loop = false :=
    trigger_off_of_gt _ v hk hl hv
  constructor
  · show get_step (_run τ host (τ (s.tclock + 1)) _) = get_step s + 1
    rw [run_cycle τ host _ _ hrX htrig, request_get_step]
    rfl
  · show is_running (_run τ host (τ (s.tclock + 1)) _) = true
    rw [run_cycle τ host _ _ hrX htrig, request_comp]
    exact (requestLoopF_flags _ _).1.trans rfl

/-- C10: `extend_lifespan`'s revival is not limited to lifespan-exhausted
auto-termination — the kill-clearing branch tests only the flag, not why it
was set. For any loop terminated (here: by an explicit `finish()`), a numeric
delta making the new lifespan exceed the step count clears the terminated
flag, and a subsequent `play()` resumes cycling (one cycle runs at once,
leaving the loop running) without any restart. -/
theorem extend_revives_after_finish (τ : Nat → ℚ) (host : Host) (s : Sys)
    (d : ℚ) (hi : s.loop.initialized = true) (hk : s.loop.kill = true)
    (hrn : s.loop.running = false)
    (hth : host.play_throws s.loop.step_num = false)
    (hgt : (s.loop.step_num : ℚ) < jsOrZero s.loop.lifespan + d) :
    (extend_lifespan (some d) s).1.loop.kill = false ∧
    get_step ((play τ host (extend_lifespan (some d) s).1).1) = get_step s + 1 ∧
    is_running ((play τ host (extend_lifespan (some d) s).1).1) = true ∧
    (get_step unlimitedFinished = 2 ∧ unlimitedFinished.loop.kill = true ∧
     revived.loop.kill = false ∧ get_lifespan revived = some 5 ∧
     get_step revivedResumed = 5 ∧ is_running revivedResumed = false ∧
     revivedResumed.loop.kill = true) := by
  have hext := extend_some_eq s d hi
  have hkill2 : (extend_lifespan (some d) s).1.loop.kill = false := by
    rw [hext]
    show (s.loop.kill &&
      !(decide (jsOrZero s.loop.lifespan + d > (s.loop.step_num : ℚ)))) = false
    rw [hk, decide_eq_true hgt]
    rfl
  have hi2 : (extend_lifespan (some d) s).1.loop.initialized = true := by
    rw [hext]
    exact hi
  have hrn2 : (extend_lifespan (some d) s).1.loop.running = false := by
    rw [hext]
    exact hrn
  have hth2 : host.play_throws (extend_lifespan (some d) s).1.loop.step_num = false := by
    rw [hext]
    exact hth
  have hl2 : (extend_lifespan (some d) s).1.loop.lifespan =
      some (jsOrZero s.loop.lifespan + d) := by
    rw [hext]
  have hv2 : ((extend_lifespan (some d) s).1.loop.step_num : ℚ) <
      jsOrZero s.loop.lifespan + d := by
    rw [hext]
    exact hgt
  obtain ⟨g1, g2⟩ := play_runs_cycle τ host (extend_lifespan (some d) s).1
    (jsOrZero s.loop.lifespan + d) hi2 hrn2 hkill2 hth2 hl2 hv2
  have hstep2 : get_step (extend_lifespan (some d) s).1 = get_step s := by
    rw [hext]
    rfl
  refine ⟨hkill2, g1.trans (by rw [hstep2]), g2, ?_⟩
  have hi5 : unlimitedFinished.loop.initialized = true := by decide
  have hl5 : unlimitedFinished.loop.lifespan = none := by decide
  have hstep5 : unlimitedFinished.loop.step_num = 2 := by decide
  have hkill5 : unlimitedFinished.loop.kill = true := by decide
  have hext5 := extend_some_eq unlimitedFinished 5 hi5
  rw [hl5, hstep5, hkill5] at hext5
  have h5 : jsOrZero none + (5 : ℚ) = 5 := by norm_num [jsOrZero]
  rw [h5] at hext5
  refine ⟨by decide, hkill5, ?_, ?_, ?_, ?_, ?_⟩
  · show (extend_lifespan (some 5) unlimitedFinished).1.loop.kill = false
    rw [hext5]
    decide
  · show get_lifespan (extend_lifespan (some 5) unlimitedFinished).1 = some 5
    rw [hext5]
    rfl
  · show get_step (runFires τ0 quietHost 3
      ((play τ0 quietHost (extend_lifespan (some 5) unlimitedFinished).1).1)) = 5
    rw [hext5]
    decide
  · show is_running (runFires τ0 quietHost 3
      ((play τ0 quietHost (extend_lifespan (some 5) unlimitedFinished).1).1)) = false
    rw [hext5]
    decide
  · show (runFires τ0 quietHost 3
      ((play τ0 quietHost (extend_lifespan (some 5) unlimitedFinished).1).1)).loop.kill = true
    rw [hext5]
    decide

/-- C10 witness: the finish-terminated demo loop revived by
`extend_lifespan(5)`. -/
theorem extend_revives_after_finish_witness :
    (extend_lifespan (some 5) unlimitedFinished).1.loop.kill = false ∧
    get_step ((play τ0 quietHost (extend_lifespan (some 5) unlimitedFinished).1).1) =
      get_step unlimitedFinished + 1 :=
  ⟨(extend_revives_after_finish τ0 quietHost unlimitedFinished 5 (by decide)
      (by decide) (by decide) (by decide)
      (by
        rw [show unlimitedFinished.loop.lifespan = none from by decide,
          show unlimitedFinished.loop.step_num = 2 from by decide]
        norm_num [jsOrZero])).1,
   (extend_revives_after_finish τ0 quietHost unlimitedFinished 5 (by decide)
      (by decide) (by decide) (by decide)
      (by
        rw [show unlimitedFinished.loop.lifespan = none from by decide,
          show unlimitedFinished.loop.step_num = 2 from by decide]
        norm_num [jsOrZero])).2.1⟩

/-- C2 witness: on the started demo loop, a host whose `on_pause`/`on_play`
throw sees the exception escape `pause()` and `play()`. -/
theorem hook_exception_isolation_witness :
    (pause throwingHost demoStarted).2 = some HookTag.pauseTag ∧
    (play τ0 throwingHost demoPaused).2 = some HookTag.playTag :=
  ⟨(hook_exception_isolation τ0 throwingHost quietHost 0 demoStarted
      demoStarted demoPaused).2.2.2.1 (by decide) (by decide) (by decide)
      (by decide),
   ((hook_exception_isolation τ0 throwingHost quietHost 0 demoStarted
      demoStarted demoPaused).2.2.2.2 (by decide) (by decide) (by decide)
      (by decide)).1⟩

/-- C2 counterexample: `on_play` is not wrapped — on the paused demo loop a
throwing `on_play` escapes to the caller of `play()`, the cycle that should
follow never runs (step count unchanged) and nothing is scheduled, leaving
the loop marked running with no pending tick. -/
theorem play_exception_escapes :
    (play τ0 throwingHost demoPaused).2 = some HookTag.playTag ∧
    get_step (play τ0 throwingHost demoPaused).1 = get_step demoPaused ∧
    (play τ0 throwingHost demoPaused).1.pending = [] ∧
    is_running (play τ0 throwingHost demoPaused).1 = true := by
  decide

/-- C3 (amended): in every state reachable by the public operations and
callback firings, the terminated (kill) flag implies neither running nor
paused; and running/paused mutual exclusion is preserved by every operation
except `start()`, which preserves it only from a non-paused state —
`start()` never clears the paused flag. -/
theorem lifecycle_flag_invariants :
    (∀ s, Reachable s → s.loop.kill = true →
      s.loop.running = false ∧ s.loop.paused = false) ∧
    (∀ (τ : Nat → ℚ) (host : Host) (op : Op) (s : Sys), op ≠ Op.startOp →
      (s.loop.running = true → s.loop.paused = false) →
      ((applyOp τ host op s).loop.running = true →
        (applyOp τ host op s).loop.paused = false)) ∧
    (∀ (τ : Nat → ℚ) (host : Host) (s : Sys), s.loop.paused = false →
      ((start τ host s).loop.running = true →
        (start τ host s).loop.paused = false)) :=
  ⟨fun s h => reachable_kill_inv s h,
   fun τ host op s hop h => applyOp_me τ host op s hop h,
   fun τ host s hp => start_me τ host s hp⟩

/-- C3 witness: the invariants instantiated on the started demo loop. -/
theorem lifecycle_flag_invariants_witness :
    ((applyOp τ0 quietHost Op.pauseOp demoStarted).loop.running = true →
      (applyOp τ0 quietHost Op.pauseOp demoStarted).loop.paused = false) ∧
    (demoStarted.loop.kill = true →
      demoStarted.loop.running = false ∧ demoStarted.loop.paused = false) :=
  ⟨lifecycle_flag_invariants.2.1 τ0 quietHost Op.pauseOp demoStarted
      (by decide) (by decide),
   lifecycle_flag_invariants.1 demoStarted
      (Reachable.step τ0 quietHost Op.startOp _
        (Reachable.construct 60 none false false))⟩

/-- C3 counterexample: `start()` issued on the paused demo loop yields a
reachable state in which `is_running()` and `is_paused()` are both true —
the claimed mutual exclusion fails, because `start()` sets the running flag
without clearing the paused flag. -/
theorem start_while_paused_breaks_exclusion :
    Reachable (start τ0 quietHost demoPaused) ∧
    is_running (start τ0 quietHost demoPaused) = true ∧
    is_paused (start τ0 quietHost demoPaused) = true := by
  refine ⟨?_, by decide, by decide⟩
  exact Reachable.step τ0 quietHost Op.startOp _
    (Reachable.step τ0 quietHost Op.pauseOp _
      (Reachable.step τ0 quietHost Op.startOp _
        (Reachable.construct 60 none false false)))

end Steploop
